import Mathlib

/-!
Verification of the FeastFleet food-delivery application.

The definitions below are a shallow embedding of the Python sources:

* `src/utils/geo_utils.py`      — Haversine distance, nearby-restaurant search, ETA
* `src/utils/data_store.py`     — the JSON-backed Record Store (users, restaurants,
                                  menu items, orders)
* `src/utils/authentication.py` — registration / login
* `src/pages/2_Restaurants.py`  — cart handling and checkout
* `src/pages/3_Orders_Tracking.py` — the vendor / customer order-lifecycle actions

Numbers that the Python code handles as floats are modelled as rationals (`ℚ`)
where exact executable arithmetic is possible, and as reals (`ℝ`) where the
code applies transcendental functions (the Haversine formula).  Python dict
fields whose presence the code tests with `"k" not in d` are modelled as
`Option` fields.
-/

/-- Python `int(q)`: truncation toward zero (floor for non-negative values,
ceiling for negative ones). -/
def pyInt (q : ℚ) : ℤ := if 0 ≤ q then ⌊q⌋ else ⌈q⌉

/-- `geo_utils.calculate_eta(distance_km, speed_km_per_hour=25)`
(src/utils/geo_utils.py lines 141-152):
time in hours is `distance / speed`, converted to minutes, a preparation
buffer of 10 minutes is added when `distance_km < 5` and 15 minutes
otherwise, and the sum is truncated with Python `int`. -/
def calculate_eta (distance_km : ℚ) (speed_km_per_hour : ℚ := 25) : ℤ :=
  let time_hours := distance_km / speed_km_per_hour
  let time_minutes := time_hours * 60
  let buffer_minutes : ℚ := if distance_km < 5 then 10 else 15
  pyInt (time_minutes + buffer_minutes)

/-- Python `math.radians(x)`: degrees to radians. -/
noncomputable def pyRadians (x : ℝ) : ℝ := x * (Real.pi / 180)

/-- `geo_utils.calculate_distance(lat1, lon1, lat2, lon2)`
(src/utils/geo_utils.py lines 8-22): the Haversine great-circle distance.
All four inputs are converted from decimal degrees to radians, then
`a = sin(dlat/2)^2 + cos(lat1) * cos(lat2) * sin(dlon/2)^2`,
`c = 2 * asin(sqrt(a))`, and the result is `c * 6371` kilometers. -/
noncomputable def calculate_distance (lat1 lon1 lat2 lon2 : ℝ) : ℝ :=
  let lat1r := pyRadians lat1
  let lon1r := pyRadians lon1
  let lat2r := pyRadians lat2
  let lon2r := pyRadians lon2
  let dlon := lon2r - lon1r
  let dlat := lat2r - lat1r
  let a := Real.sin (dlat / 2) ^ 2 +
    Real.cos lat1r * Real.cos lat2r * Real.sin (dlon / 2) ^ 2
  let c := 2 * Real.arcsin (Real.sqrt a)
  let r : ℝ := 6371
  c * r

/-- Python `round(x, 2)`: rounding to two decimal places, modelled with
Mathlib's `round` (the tie-breaking rule of Python's float rounding is
immaterial to the claims below). -/
noncomputable def round2 (x : ℝ) : ℝ := (round (x * 100) : ℤ) / 100

/-- A `{"lat": ..., "lng": ...}` dictionary (the user location). -/
structure LatLng (α : Type) where
  lat : α
  lng : α
deriving DecidableEq

/-- A restaurant's `location` sub-dictionary (src/pages/1_Vendor_Registration.py
lines 143-147). -/
structure Location (α : Type) where
  lat : α
  lng : α
  address : String
deriving DecidableEq

/-- A restaurant record, with the fields built by the vendor-registration form
(src/pages/1_Vendor_Registration.py lines 138-186).  The Record Store's
`add_restaurant` assigns the `id` when it is absent, hence `Option`.
The coordinate type is a parameter: the geo utilities work with real
coordinates, the executable store tests use rational ones. -/
structure Restaurant (α : Type) where
  id : Option String
  owner_id : String
  name : String
  description : String
  cuisine : String
  location : Location α
  food_license : String
  is_cloud_kitchen : Bool
  owner_name : String
  phone : String
  email : String
  website : String
  payment_options : List String
  delivery_radius : ℚ
  self_delivery : Bool
  menu_categories : String
  opening_time : String
  closing_time : String
  is_verified : Bool
  created_at : ℚ
  updated_at : ℚ
  image_url : String
  rating : ℚ
  review_count : ℕ
deriving DecidableEq

/-- The result entry built by `get_nearby_restaurants`
(src/utils/geo_utils.py lines 48-50): a copy (`restaurant.copy()`) of an
input restaurant record plus the one added `"distance"` field. -/
structure AnnotatedRestaurant where
  restaurant : Restaurant ℝ
  distance : ℝ

/-- `geo_utils.get_nearby_restaurants(user_location, restaurants, radius_km=5)`
(src/utils/geo_utils.py lines 33-53): for each input restaurant the Haversine
distance from the user location is computed; restaurants with
`distance <= radius_km` are kept, as a copy annotated with the distance
rounded to two decimals, and the kept list is sorted ascending by that
`"distance"` field (Python's stable `sorted`, modelled by `mergeSort`). -/
noncomputable def get_nearby_restaurants (user_location : LatLng ℝ)
    (restaurants : List (Restaurant ℝ)) (radius_km : ℝ := 5) :
    List AnnotatedRestaurant :=
  let nearby := restaurants.filterMap fun restaurant =>
    let distance := calculate_distance user_location.lat user_location.lng
      restaurant.location.lat restaurant.location.lng
    if distance ≤ radius_km then
      some { restaurant := restaurant, distance := round2 distance }
    else none
  nearby.mergeSort fun a b => decide (a.distance ≤ b.distance)

/-- The `profile` sub-dictionary built at registration
(src/utils/authentication.py lines 32-36). -/
structure UserProfile where
  address : String
  preferences : List String
  allergies : List String
deriving DecidableEq

/-- A user record with the fields built by `register_user`
(src/utils/authentication.py lines 24-37).  `add_user` appends the record
as-is, so a record may lack an `id`, hence `Option`.  (Vendor pages may later
attach an embedded `restaurant` key; no claim depends on it and it is not
modelled.) -/
structure UserRec where
  id : Option String
  name : String
  email : String
  phone : String
  password_hash : String
  user_type : String
  created_at : ℚ
  profile : UserProfile
deriving DecidableEq

/-- A menu-item record (fields read by src/pages/2_Restaurants.py lines
136-254 and filtered by `restaurant_id` in src/utils/data_store.py line 150).
`add_menu_item` assigns the `id` when absent, hence `Option`. -/
structure MenuItem where
  id : Option String
  restaurant_id : String
  name : String
  description : String
  price : ℚ
  category : String
  is_veg : Bool
  image_url : String
deriving DecidableEq

/-- A cart line, built by `add_to_cart` (src/pages/2_Restaurants.py lines
141-148): a denormalized snapshot of a menu item plus a quantity and the
restaurant it came from. -/
structure CartItem where
  id : Option String
  name : String
  price : ℚ
  quantity : ℕ
  restaurant_id : Option String
  restaurant_name : String
deriving DecidableEq

/-- An order record, with the fields built at checkout
(src/pages/2_Restaurants.py lines 332-347).  `add_order` fills in `id`,
`created_at` and `status` when they are absent, hence the `Option` fields. -/
structure OrderRec where
  id : Option String
  user_id : String
  customer_name : String
  restaurant_id : String
  restaurant_name : String
  items : List String
  item_details : List CartItem
  total_amount : ℚ
  delivery_address : String
  phone : String
  payment_method : String
  status : Option String
  eta : String
  created_at : Option ℚ
  distance_km : ℚ
deriving DecidableEq

/-- The whole JSON document `st.session_state.data_store`
(src/utils/data_store.py lines 26-38): four flat collections. -/
structure DataStore where
  users : List UserRec
  restaurants : List (Restaurant ℚ)
  menu_items : List MenuItem
  orders : List OrderRec
deriving DecidableEq

/-- The in-memory document plus the persisted copy on disk.  Every mutating
Record Store operation ends with `_save_data_to_file()`, which dumps the whole
in-memory document to disk (src/utils/data_store.py lines 41-52); that dump is
modelled as `disk := mem`.  (A failed write — which would leave `disk` stale —
is outside the scope of the claims proved here.) -/
structure AppState where
  mem : DataStore
  disk : DataStore
deriving DecidableEq

/-- The loop shared by the four `update_*` functions of the Record Store
(e.g. src/utils/data_store.py lines 91-100): scan the collection and replace
the first record whose `id` equals the given record's, or report a miss. -/
def updateById {α : Type} (getId : α → Option String) :
    List α → α → Option (List α)
  | [], _ => none
  | u :: rest, x =>
    if getId u = getId x then some (x :: rest)
    else (updateById getId rest x).map (u :: ·)

/-- `data_store.get_user_by_email(email)` (src/utils/data_store.py lines
75-81): the first user whose `email` field equals the argument. -/
def get_user_by_email (users : List UserRec) (email : String) : Option UserRec :=
  users.find? fun user => decide (user.email = email)

/-- `data_store.add_user(user)` (src/utils/data_store.py lines 83-89):
appends the record unchanged (no id is assigned) and saves; returns `True`. -/
def add_user (s : AppState) (user : UserRec) : AppState × Bool :=
  let mem := { s.mem with users := s.mem.users ++ [user] }
  (⟨mem, mem⟩, true)

/-- `data_store.update_user(user)` (src/utils/data_store.py lines 91-100):
replaces the first user sharing the record's id and saves, returning `True`;
returns `False` leaving memory and disk untouched when no id matches. -/
def update_user (s : AppState) (user : UserRec) : AppState × Bool :=
  match updateById (·.id) s.mem.users user with
  | some users =>
    let mem := { s.mem with users := users }
    (⟨mem, mem⟩, true)
  | none => (s, false)

/-- `data_store.add_restaurant(restaurant)` (src/utils/data_store.py lines
120-129): assigns id `"rest" + str(count + 1)` when the record has none
(`count` being the number of restaurants already stored), appends and saves. -/
def add_restaurant (s : AppState) (restaurant : Restaurant ℚ) :
    AppState × Bool :=
  let restaurant :=
    if restaurant.id = none then
      { restaurant with
        id := some ("rest" ++ toString (s.mem.restaurants.length + 1)) }
    else restaurant
  let mem := { s.mem with restaurants := s.mem.restaurants ++ [restaurant] }
  (⟨mem, mem⟩, true)

/-- `data_store.update_restaurant(restaurant)` (src/utils/data_store.py lines
131-140): same first-id-match replacement as `update_user`. -/
def update_restaurant (s : AppState) (restaurant : Restaurant ℚ) :
    AppState × Bool :=
  match updateById (·.id) s.mem.restaurants restaurant with
  | some restaurants =>
    let mem := { s.mem with restaurants := restaurants }
    (⟨mem, mem⟩, true)
  | none => (s, false)

/-- `data_store.add_menu_item(menu_item)` (src/utils/data_store.py lines
152-161): assigns id `"item" + str(count + 1)` when absent, appends, saves. -/
def add_menu_item (s : AppState) (menu_item : MenuItem) : AppState × Bool :=
  let menu_item :=
    if menu_item.id = none then
      { menu_item with
        id := some ("item" ++ toString (s.mem.menu_items.length + 1)) }
    else menu_item
  let mem := { s.mem with menu_items := s.mem.menu_items ++ [menu_item] }
  (⟨mem, mem⟩, true)

/-- `data_store.update_menu_item(menu_item)` (src/utils/data_store.py lines
163-172): same first-id-match replacement as `update_user`. -/
def update_menu_item (s : AppState) (menu_item : MenuItem) : AppState × Bool :=
  match updateById (·.id) s.mem.menu_items menu_item with
  | some menu_items =>
    let mem := { s.mem with menu_items := menu_items }
    (⟨mem, mem⟩, true)
  | none => (s, false)

/-- `data_store.add_order(order)` (src/utils/data_store.py lines 197-212):
assigns id `"order" + str(count + 1)` when absent, defaults `created_at` to
`time.time()` (passed here as `now`) and `status` to `"pending"` when absent,
appends, saves, and returns the stored order. -/
def add_order (s : AppState) (order : OrderRec) (now : ℚ) :
    AppState × OrderRec :=
  let order :=
    if order.id = none then
      { order with id := some ("order" ++ toString (s.mem.orders.length + 1)) }
    else order
  let order :=
    if order.created_at = none then { order with created_at := some now }
    else order
  let order :=
    if order.status = none then { order with status := some "pending" }
    else order
  let mem := { s.mem with orders := s.mem.orders ++ [order] }
  (⟨mem, mem⟩, order)

/-- `data_store.update_order(order)` (src/utils/data_store.py lines 214-223):
same first-id-match replacement as `update_user`. -/
def update_order (s : AppState) (order : OrderRec) : AppState × Bool :=
  match updateById (·.id) s.mem.orders order with
  | some orders =>
    let mem := { s.mem with orders := orders }
    (⟨mem, mem⟩, true)
  | none => (s, false)

/-- `authentication.register_user(name, email, phone, password, user_type)`
(src/utils/authentication.py lines 16-42).  `hash_password` stands for the
external `hashlib.sha256(...).hexdigest()` one-way hash and `now` for
`time.time()`; the assigned id is `str(int(time.time()))`.  When a user with
the given email already exists the function returns `(False, None)` without
touching the store; otherwise it builds the user record with profile
defaults, adds it via `add_user` and returns it. -/
def register_user (hash_password : String → String) (now : ℚ) (s : AppState)
    (name email phone password user_type : String) :
    AppState × Bool × Option UserRec :=
  match get_user_by_email s.mem.users email with
  | some _ => (s, false, none)
  | none =>
    let user : UserRec :=
      { id := some (toString (pyInt now))
        name := name
        email := email
        phone := phone
        password_hash := hash_password password
        user_type := user_type
        created_at := now
        profile := { address := "", preferences := [], allergies := [] } }
    let res := add_user s user
    (res.1, res.2, if res.2 then some user else none)

/-- The in-place `existing_item["quantity"] += 1` of `add_to_cart`
(src/pages/2_Restaurants.py line 155): the first cart line whose `id` equals
the given menu item id (the line `next(...)` found) gets its quantity raised
by one; every other line is untouched. -/
def bumpQuantity : List CartItem → Option String → List CartItem
  | [], _ => []
  | item :: rest, mid =>
    if item.id = mid then { item with quantity := item.quantity + 1 } :: rest
    else item :: bumpQuantity rest mid

/-- `add_to_cart(menu_item, restaurant)` (src/pages/2_Restaurants.py lines
136-162).  If the cart is non-empty and its first line's `restaurant_id`
differs from the given restaurant's id, the cart is left unchanged (the page
shows an error).  Otherwise, when a line with the menu item's id already
exists its quantity is incremented in place, else a fresh line with
quantity 1 is appended. -/
def add_to_cart (cart : List CartItem) (menu_item : MenuItem)
    (restaurant : Restaurant ℚ) : List CartItem :=
  match cart with
  | [] =>
    [{ id := menu_item.id
       name := menu_item.name
       price := menu_item.price
       quantity := 1
       restaurant_id := restaurant.id
       restaurant_name := restaurant.name }]
  | first :: _ =>
    if first.restaurant_id = restaurant.id then
      if (cart.find? fun item => decide (item.id = menu_item.id)).isSome then
        bumpQuantity cart menu_item.id
      else
        cart ++
          [{ id := menu_item.id
             name := menu_item.name
             price := menu_item.price
             quantity := 1
             restaurant_id := restaurant.id
             restaurant_name := restaurant.name }]
    else cart

/-- `remove_from_cart(item_id)` (src/pages/2_Restaurants.py lines 164-166):
drops every cart line with the given id. -/
def remove_from_cart (cart : List CartItem) (item_id : Option String) :
    List CartItem :=
  cart.filter fun item => decide (¬ item.id = item_id)

/-- The order dictionary built by the "Place Order" handler
(src/pages/2_Restaurants.py lines 332-347): no id, `status = "confirmed"`,
`eta` a display string, `created_at = time.time()` (the `now` argument),
`distance_km` the computed distance (quantified over here). -/
def checkout_order (user_id customer_name restaurant_id restaurant_name : String)
    (items : List String) (item_details : List CartItem) (total_amount : ℚ)
    (delivery_address phone payment_method : String) (eta_minutes : ℤ)
    (now distance : ℚ) : OrderRec :=
  { id := none
    user_id := user_id
    customer_name := customer_name
    restaurant_id := restaurant_id
    restaurant_name := restaurant_name
    items := items
    item_details := item_details
    total_amount := total_amount
    delivery_address := delivery_address
    phone := phone
    payment_method := payment_method
    status := some "confirmed"
    eta := toString eta_minutes ++ " minutes"
    created_at := some now
    distance_km := distance }

/-- The "Place Order" handler's store interaction
(src/pages/2_Restaurants.py line 350): `new_order = add_order(order)`. -/
def place_order (s : AppState) (user_id customer_name restaurant_id
    restaurant_name : String) (items : List String)
    (item_details : List CartItem) (total_amount : ℚ)
    (delivery_address phone payment_method : String) (eta_minutes : ℤ)
    (now distance : ℚ) : AppState × OrderRec :=
  add_order s
    (checkout_order user_id customer_name restaurant_id restaurant_name items
      item_details total_amount delivery_address phone payment_method
      eta_minutes now distance) now

/-- A vendor action button handler (src/pages/3_Orders_Tracking.py lines
331-344, 347-360, 384-397, 420-433): the clicked order — an alias into the
in-memory orders list, written here as the decomposition `l1 ++ o :: l2` —
gets `order["status"] = newStatus` assigned in place, and then
`update_order(order)` replaces the first record sharing its id and saves. -/
def vendorAction (s : AppState) (l1 : List OrderRec) (o : OrderRec)
    (l2 : List OrderRec) (newStatus : String) : AppState :=
  let o' := { o with status := some newStatus }
  (update_order ⟨{ s.mem with orders := l1 ++ o' :: l2 }, s.disk⟩ o').1

/-- The randomized demo auto-advance in the customer tracking view
(src/pages/3_Orders_Tracking.py lines 167-179): `order["status"] = status` is
assigned in place on the aliased record; `update_order` is not called, so the
persisted document is untouched. -/
def autoAdvance (s : AppState) (l1 : List OrderRec) (o : OrderRec)
    (l2 : List OrderRec) (newStatus : String) : AppState :=
  ⟨{ s.mem with orders := l1 ++ { o with status := some newStatus } :: l2 },
    s.disk⟩

/-- The five order statuses of the lifecycle (spec section 3; the status
strings appearing in src/pages/3_Orders_Tracking.py). -/
def statusSet : List String :=
  ["confirmed", "preparing", "out_for_delivery", "delivered", "cancelled"]

/-- The order's status field is present and one of the five lifecycle
statuses. -/
def statusOkB (o : OrderRec) : Bool :=
  match o.status with
  | some st => statusSet.contains st
  | none => false

/-- Every order of the collection has a status in the five-status set. -/
def ordersOk (orders : List OrderRec) : Bool := orders.all statusOkB

/-- The status changes permitted by the one-directional lifecycle chain
`confirmed → preparing → out_for_delivery → delivered`, plus cancellation
from `confirmed` or `preparing` (spec sections 3 and 4.4). -/
def allowedTransition (a b : String) : Prop :=
  (a, b) ∈ [("confirmed", "preparing"), ("preparing", "out_for_delivery"),
    ("out_for_delivery", "delivered"), ("confirmed", "cancelled"),
    ("preparing", "cancelled")]

/-- One application-level operation on the orders collection:

* `checkout` — the "Place Order" handler (src/pages/2_Restaurants.py
  lines 314-350);
* `insert` — a direct Record Store insert of an order already carrying one of
  the five lifecycle statuses;
* `accept` / `reject` — vendor buttons shown for orders filtered to status
  `"confirmed"` (src/pages/3_Orders_Tracking.py lines 309, 331-360);
* `ready` — shown for status `"preparing"` (lines 310, 384-397);
* `deliver` — shown for status `"out_for_delivery"` (lines 311, 420-433);
* `autoPrepare` / `autoOut` — the randomized demo nudges applied to a
  tracked order of status `"confirmed"` resp. `"preparing"`
  (lines 167-179). -/
inductive OrderStep : AppState → AppState → Prop where
  | checkout (s : AppState) (user_id customer_name restaurant_id
      restaurant_name : String) (items : List String)
      (item_details : List CartItem) (total_amount : ℚ)
      (delivery_address phone payment_method : String) (eta_minutes : ℤ)
      (now distance : ℚ) :
      OrderStep s (place_order s user_id customer_name restaurant_id
        restaurant_name items item_details total_amount delivery_address phone
        payment_method eta_minutes now distance).1
  | insert (s : AppState) (o : OrderRec) (now : ℚ) (st : String)
      (hst : o.status = some st) (hmem : st ∈ statusSet) :
      OrderStep s (add_order s o now).1
  | accept (s : AppState) (l1 : List OrderRec) (o : OrderRec)
      (l2 : List OrderRec) (ho : s.mem.orders = l1 ++ o :: l2)
      (hst : o.status = some "confirmed") :
      OrderStep s (vendorAction s l1 o l2 "preparing")
  | reject (s : AppState) (l1 : List OrderRec) (o : OrderRec)
      (l2 : List OrderRec) (ho : s.mem.orders = l1 ++ o :: l2)
      (hst : o.status = some "confirmed") :
      OrderStep s (vendorAction s l1 o l2 "cancelled")
  | ready (s : AppState) (l1 : List OrderRec) (o : OrderRec)
      (l2 : List OrderRec) (ho : s.mem.orders = l1 ++ o :: l2)
      (hst : o.status = some "preparing") :
      OrderStep s (vendorAction s l1 o l2 "out_for_delivery")
  | deliver (s : AppState) (l1 : List OrderRec) (o : OrderRec)
      (l2 : List OrderRec) (ho : s.mem.orders = l1 ++ o :: l2)
      (hst : o.status = some "out_for_delivery") :
      OrderStep s (vendorAction s l1 o l2 "delivered")
  | autoPrepare (s : AppState) (l1 : List OrderRec) (o : OrderRec)
      (l2 : List OrderRec) (ho : s.mem.orders = l1 ++ o :: l2)
      (hst : o.status = some "confirmed") :
      OrderStep s (autoAdvance s l1 o l2 "preparing")
  | autoOut (s : AppState) (l1 : List OrderRec) (o : OrderRec)
      (l2 : List OrderRec) (ho : s.mem.orders = l1 ++ o :: l2)
      (hst : o.status = some "preparing") :
      OrderStep s (autoAdvance s l1 o l2 "out_for_delivery")

/-- The cart invariant of spec section 3: all lines of the cart come from one
restaurant. -/
def cartConsistent (cart : List CartItem) : Prop :=
  ∀ a ∈ cart, ∀ b ∈ cart, a.restaurant_id = b.restaurant_id

/-- An empty JSON document, as returned when no data file exists
(src/utils/data_store.py lines 26-39). -/
def emptyStore : DataStore := ⟨[], [], [], []⟩

/-- A fresh application state: empty document in memory and on disk. -/
def emptyState : AppState := ⟨emptyStore, emptyStore⟩

/-- Concrete fixture: the profile defaults of registration. -/
def sampleProfile : UserProfile := ⟨"", [], []⟩

/-- Concrete fixture: a stored user. -/
def sampleUser : UserRec :=
  ⟨some "1700000000", "Asha", "asha@example.com", "99", "h1", "customer", 0,
    sampleProfile⟩

/-- Concrete fixture: a user record carrying no `id` field. -/
def noIdUser : UserRec :=
  ⟨none, "Ravi", "ravi@example.com", "88", "h2", "customer", 0, sampleProfile⟩

/-- Concrete fixture: a restaurant record (rational coordinates). -/
def sampleRestaurant : Restaurant ℚ :=
  ⟨some "rest1", "1700000000", "Udupi Garden", "South Indian food", "South Indian",
    ⟨1297 / 100, 7759 / 100, "MG Road"⟩, "FL1", false, "Asha", "99",
    "asha@example.com", "", ["Cash on Delivery"], 5, false,
    "Starters, Main Course", "09:00:00", "22:00:00", false, 0, 0, "img", 0, 0⟩

/-- Concrete fixture: a menu item of `sampleRestaurant`. -/
def sampleMenuItem : MenuItem :=
  ⟨some "item1", "rest1", "Masala Dosa", "Crisp dosa", 80, "Starters", true,
    "img"⟩

/-- Concrete fixture: an order with a chosen id and status. -/
def sampleOrder (id status : Option String) : OrderRec :=
  ⟨id, "1700000000", "Asha", "rest1", "Udupi Garden", ["Masala Dosa x1"], [],
    80, "MG Road", "99", "Cash on Delivery", status, "12 minutes", some 0, 1⟩

/-- Concrete fixture: an orders collection with a confirmed and a cancelled
order. -/
def witnessOrders : List OrderRec :=
  [sampleOrder (some "order1") (some "confirmed"),
    sampleOrder (some "order2") (some "cancelled")]

/-- Concrete fixture: an application state holding `witnessOrders`. -/
def witnessState : AppState := ⟨⟨[], [], [], witnessOrders⟩, emptyStore⟩

/-! ## Helper lemmas -/

theorem updateById_none {α : Type} (getId : α → Option String) (l : List α)
    (x : α) (h : ∀ u ∈ l, getId u ≠ getId x) : updateById getId l x = none := by
  induction l with
  | nil => rfl
  | cons u rest ih =>
    simp only [updateById]
    rw [if_neg (h u (by simp)), ih fun v hv => h v (by simp [hv])]
    rfl

theorem updateById_append {α : Type} (getId : α → Option String)
    (l1 : List α) (x y : α) (l2 : List α) (hx : getId x = getId y)
    (h : ∀ u ∈ l1, getId u ≠ getId y) :
    updateById getId (l1 ++ x :: l2) y = some (l1 ++ y :: l2) := by
  induction l1 with
  | nil => simp [updateById, hx]
  | cons u rest ih =>
    simp only [List.cons_append, updateById, List.append_eq]
    rw [if_neg (h u (by simp)), ih fun v hv => h v (by simp [hv])]
    rfl

/-! ## C3: ETA = truncated travel time plus distance-dependent buffer -/

/-- Claim C3.  For every non-negative distance `d` and positive speed `s`,
`calculate_eta d s` equals the integer truncation of `(d / s) * 60` plus a
preparation buffer of 10 minutes when `d < 5` km and 15 minutes otherwise
(so `d = 4.9` gets the 10-minute buffer and the boundary `d = 5` the
15-minute one). -/
theorem calculate_eta_eq_trunc_add_buffer (d s : ℚ) (hd : 0 ≤ d)
    (hs : 0 < s) :
    calculate_eta d s = pyInt (d / s * 60) + (if d < 5 then 10 else 15) := by
  have ht : 0 ≤ d / s * 60 := by positivity
  have hfloor : ∀ b : ℤ, ⌊d / s * 60 + (b : ℚ)⌋ = ⌊d / s * 60⌋ + b :=
    fun b => Int.floor_add_int _ b
  by_cases hb : d < 5 <;>
    simp only [calculate_eta, pyInt, hb, if_true, if_false, ite_true,
      ite_false, if_pos ht] <;>
  · rw [if_pos (by linarith)]
    first
    | rw [show (10 : ℚ) = ((10 : ℤ) : ℚ) by norm_num, hfloor 10]
    | rw [show (15 : ℚ) = ((15 : ℤ) : ℚ) by norm_num, hfloor 15]

/-- Witness for C3: `calculate_eta` at distance 4.9 km and speed 25 km/h
(10-minute buffer) and at the boundary distance 5 km (15-minute buffer). -/
theorem calculate_eta_eq_trunc_add_buffer_witness :
    (0 ≤ (49 : ℚ) / 10 ∧ 0 < (25 : ℚ) ∧
      calculate_eta (49 / 10) 25 = pyInt (49 / 10 / 25 * 60) + 10) ∧
    (0 ≤ (5 : ℚ) ∧
      calculate_eta 5 25 = pyInt (5 / 25 * 60) + 15) ∧
    calculate_eta (49 / 10) 25 = 21 ∧ calculate_eta 5 25 = 27 := by
  refine ⟨⟨by norm_num, by norm_num, ?_⟩, ⟨by norm_num, ?_⟩, ?_, ?_⟩
  · have h := calculate_eta_eq_trunc_add_buffer (49 / 10) 25 (by norm_num)
      (by norm_num)
    rw [if_pos (by norm_num : (49 : ℚ) / 10 < 5)] at h
    exact h
  · have h := calculate_eta_eq_trunc_add_buffer 5 25 (by norm_num)
      (by norm_num)
    rw [if_neg (by norm_num : ¬ (5 : ℚ) < 5)] at h
    exact h
  · norm_num [calculate_eta, pyInt]
  · norm_num [calculate_eta, pyInt]

/-! ## C2: id assignment on insert -/

/-- Counterexample to claim C2 as stated: inserting a user record that has no
`id` field stores it unchanged — `add_user` (src/utils/data_store.py lines
83-89) assigns no id at all, so the stored ids read `[none]` instead of the
claimed `"user" + str(count + 1)` form. -/
theorem add_user_assigns_no_id :
    (add_user emptyState noIdUser).1.mem.users.map UserRec.id = [none] := by
  decide

/-- Claim C2 (amended): for the restaurants, menu items and orders
collections, inserting a record without an id assigns it
`<prefix><count + 1>` (`"rest"`, `"item"`, `"order"` respectively, `count`
being the number of records already stored); the users insert assigns no id
(callers assign user ids themselves as a timestamp string). -/
theorem insert_assigns_prefixed_ids :
    ∀ (s : AppState) (r : Restaurant ℚ) (mi : MenuItem) (o : OrderRec)
      (now : ℚ),
    (r.id = none →
      (add_restaurant s r).1.mem.restaurants =
        s.mem.restaurants ++
          [{ r with
            id := some ("rest" ++ toString (s.mem.restaurants.length + 1)) }]) ∧
    (mi.id = none →
      (add_menu_item s mi).1.mem.menu_items =
        s.mem.menu_items ++
          [{ mi with
            id := some ("item" ++ toString (s.mem.menu_items.length + 1)) }]) ∧
    (o.id = none →
      (add_order s o now).2.id =
          some ("order" ++ toString (s.mem.orders.length + 1)) ∧
        (add_order s o now).1.mem.orders =
          s.mem.orders ++ [(add_order s o now).2]) := by
  intro s r mi o now
  refine ⟨fun h => ?_, fun h => ?_, fun h => ?_⟩
  · simp [add_restaurant, h]
  · simp [add_menu_item, h]
  · constructor
    · simp only [add_order, h]
      split_ifs <;> simp_all
    · simp [add_order, h]

/-- From uniqueness of the mapped ids: no record of `l1` shares its id with
the distinguished record `u`. -/
theorem not_mem_of_nodup_middle {α : Type} (getId : α → Option String)
    (l1 : List α) (u : α) (l2 : List α)
    (hnd : ((l1 ++ u :: l2).map getId).Nodup) :
    ∀ v ∈ l1, getId v ≠ getId u := by
  have hmap : (l1 ++ u :: l2).map getId =
      l1.map getId ++ getId u :: l2.map getId := by simp
  rw [hmap] at hnd
  have h1 := (List.nodup_cons.mp (List.nodup_middle.mp hnd)).1
  intro v hv hc
  exact h1 (by
    apply List.mem_append_left
    exact hc ▸ List.mem_map_of_mem getId hv)

/-- Witness for C2 (amended): inserting an id-less restaurant, menu item and
order into the empty store assigns ids `"rest1"`, `"item1"`, `"order1"`. -/
theorem insert_assigns_prefixed_ids_witness :
    ({ sampleRestaurant with id := none } : Restaurant ℚ).id = none ∧
    (add_restaurant emptyState
        { sampleRestaurant with id := none }).1.mem.restaurants.map
        (fun r => r.id) = [some "rest1"] ∧
    ({ sampleMenuItem with id := none } : MenuItem).id = none ∧
    (add_menu_item emptyState
        { sampleMenuItem with id := none }).1.mem.menu_items.map
        (fun m => m.id) = [some "item1"] ∧
    (sampleOrder none (some "confirmed")).id = none ∧
    (add_order emptyState (sampleOrder none (some "confirmed")) 0).2.id =
      some "order1" := by
  have h := insert_assigns_prefixed_ids emptyState
    { sampleRestaurant with id := none } { sampleMenuItem with id := none }
    (sampleOrder none (some "confirmed")) 0
  refine ⟨rfl, ?_, rfl, ?_, rfl, ?_⟩
  · rw [h.1 rfl]; decide
  · rw [h.2.1 rfl]; decide
  · rw [(h.2.2 rfl).1]; decide

/-! ## C5: update replaces exactly the matching record, or fails silently -/

/-- Claim C5.  For each of the four collections: when no stored record shares
the given record's id, `update_*` returns `false` and leaves the whole
application state (in-memory document and persisted document) unchanged;
when a record with the id exists (ids being unique in the collection), the
operation replaces exactly that record and returns `true`. -/
theorem update_replaces_exactly_matching_record :
    (∀ (s : AppState) (x : UserRec),
      (∀ u ∈ s.mem.users, u.id ≠ x.id) → update_user s x = (s, false)) ∧
    (∀ (s : AppState) (x u : UserRec) (l1 l2 : List UserRec),
      s.mem.users = l1 ++ u :: l2 → (s.mem.users.map UserRec.id).Nodup →
      u.id = x.id →
      update_user s x =
        (⟨{ s.mem with users := l1 ++ x :: l2 },
          { s.mem with users := l1 ++ x :: l2 }⟩, true)) ∧
    (∀ (s : AppState) (x : Restaurant ℚ),
      (∀ r ∈ s.mem.restaurants, r.id ≠ x.id) →
      update_restaurant s x = (s, false)) ∧
    (∀ (s : AppState) (x u : Restaurant ℚ) (l1 l2 : List (Restaurant ℚ)),
      s.mem.restaurants = l1 ++ u :: l2 →
      (s.mem.restaurants.map Restaurant.id).Nodup → u.id = x.id →
      update_restaurant s x =
        (⟨{ s.mem with restaurants := l1 ++ x :: l2 },
          { s.mem with restaurants := l1 ++ x :: l2 }⟩, true)) ∧
    (∀ (s : AppState) (x : MenuItem),
      (∀ m ∈ s.mem.menu_items, m.id ≠ x.id) →
      update_menu_item s x = (s, false)) ∧
    (∀ (s : AppState) (x u : MenuItem) (l1 l2 : List MenuItem),
      s.mem.menu_items = l1 ++ u :: l2 →
      (s.mem.menu_items.map MenuItem.id).Nodup → u.id = x.id →
      update_menu_item s x =
        (⟨{ s.mem with menu_items := l1 ++ x :: l2 },
          { s.mem with menu_items := l1 ++ x :: l2 }⟩, true)) ∧
    (∀ (s : AppState) (x : OrderRec),
      (∀ o ∈ s.mem.orders, o.id ≠ x.id) → update_order s x = (s, false)) ∧
    (∀ (s : AppState) (x u : OrderRec) (l1 l2 : List OrderRec),
      s.mem.orders = l1 ++ u :: l2 → (s.mem.orders.map OrderRec.id).Nodup →
      u.id = x.id →
      update_order s x =
        (⟨{ s.mem with orders := l1 ++ x :: l2 },
          { s.mem with orders := l1 ++ x :: l2 }⟩, true)) := by
  refine ⟨fun s x h => ?_, fun s x u l1 l2 hl hnd hid => ?_,
    fun s x h => ?_, fun s x u l1 l2 hl hnd hid => ?_,
    fun s x h => ?_, fun s x u l1 l2 hl hnd hid => ?_,
    fun s x h => ?_, fun s x u l1 l2 hl hnd hid => ?_⟩ <;>
  first
  | simp [update_user, update_restaurant, update_menu_item, update_order,
      updateById_none _ _ _ h]
  | (rw [hl] at hnd
     have hne : ∀ v ∈ l1, v.id ≠ x.id :=
       fun v hv => hid ▸ not_mem_of_nodup_middle _ l1 u l2 hnd v hv
     simp [update_user, update_restaurant, update_menu_item, update_order,
       hl, updateById_append _ l1 u x l2 hid hne])

/-- Witness for C5: in a store holding the single user `sampleUser`,
updating a record with a different id fails and changes nothing, while
updating a record with `sampleUser`'s id replaces that record. -/
theorem update_replaces_exactly_matching_record_witness :
    update_user (add_user emptyState sampleUser).1
        { sampleUser with id := some "other" } =
      ((add_user emptyState sampleUser).1, false) ∧
    update_user (add_user emptyState sampleUser).1
        { sampleUser with name := "Asha N" } =
      (⟨{ (add_user emptyState sampleUser).1.mem with
            users := [{ sampleUser with name := "Asha N" }] },
        { (add_user emptyState sampleUser).1.mem with
            users := [{ sampleUser with name := "Asha N" }] }⟩, true) := by
  constructor
  · exact update_replaces_exactly_matching_record.1 _ _ (by decide)
  · have h := update_replaces_exactly_matching_record.2.1
      (add_user emptyState sampleUser).1 { sampleUser with name := "Asha N" }
      sampleUser [] [] rfl (by decide) rfl
    simpa using h

/-! ## C6: registration rejects duplicate emails -/

/-- Claim C6.  When some stored user already holds the email, `register_user`
returns a failure and no user, leaving the whole state (hence every existing
user record) unchanged; when the email is absent it creates a user record
with the registration profile defaults, stores it via `add_user` and returns
it. -/
theorem register_duplicate_email_fails :
    ∀ (hash : String → String) (now : ℚ) (s : AppState)
      (name email phone password user_type : String),
    ((∃ u ∈ s.mem.users, u.email = email) →
      register_user hash now s name email phone password user_type =
        (s, false, none)) ∧
    ((∀ u ∈ s.mem.users, u.email ≠ email) →
      ∃ u : UserRec,
        register_user hash now s name email phone password user_type =
          ((add_user s u).1, true, some u) ∧
        u.id = some (toString (pyInt now)) ∧ u.name = name ∧
        u.email = email ∧ u.phone = phone ∧
        u.password_hash = hash password ∧ u.user_type = user_type ∧
        u.created_at = now ∧
        u.profile = { address := "", preferences := [], allergies := [] }) := by
  intro hash now s name email phone password user_type
  constructor
  · rintro ⟨u, hu, he⟩
    have hsome : (get_user_by_email s.mem.users email).isSome :=
      List.find?_isSome.mpr ⟨u, hu, by simp [he]⟩
    rcases Option.isSome_iff_exists.mp hsome with ⟨v, hv⟩
    simp [register_user, hv]
  · intro h
    have hnone : get_user_by_email s.mem.users email = none :=
      List.find?_eq_none.mpr fun u hu => by simp [h u hu]
    refine ⟨⟨some (toString (pyInt now)), name, email, phone, hash password,
      user_type, now, ⟨"", [], []⟩⟩, ?_, rfl, rfl, rfl, rfl, rfl, rfl, rfl,
      rfl⟩
    simp [register_user, hnone, add_user]

/-- Witness for C6: registering a second account with `sampleUser`'s email
fails and leaves the store unchanged; registering a fresh email succeeds. -/
theorem register_duplicate_email_fails_witness :
    register_user id 0 (add_user emptyState sampleUser).1 "Mina"
        "asha@example.com" "77" "pw" "customer" =
      ((add_user emptyState sampleUser).1, false, none) ∧
    (register_user id 0 emptyState "Mina" "mina@example.com" "77" "pw"
        "customer").2.1 = true := by
  constructor
  · exact (register_duplicate_email_fails id 0 (add_user emptyState sampleUser).1
      "Mina" "asha@example.com" "77" "pw" "customer").1
      ⟨sampleUser, by decide, by decide⟩
  · obtain ⟨u, hreg, _⟩ := (register_duplicate_email_fails id 0 emptyState
      "Mina" "mina@example.com" "77" "pw" "customer").2 (by decide)
    rw [hreg]

/-! ## C9: cart holds one restaurant; repeated adds merge by id -/

theorem bumpQuantity_restaurant_id (cart : List CartItem)
    (mid : Option String) :
    (bumpQuantity cart mid).map CartItem.restaurant_id =
      cart.map CartItem.restaurant_id := by
  induction cart with
  | nil => rfl
  | cons it rest ih =>
    by_cases h : it.id = mid <;> simp [bumpQuantity, h, ih]

theorem bumpQuantity_append (l1 : List CartItem) (it : CartItem)
    (l2 : List CartItem) (mid : Option String)
    (h1 : ∀ x ∈ l1, x.id ≠ mid) (hit : it.id = mid) :
    bumpQuantity (l1 ++ it :: l2) mid =
      l1 ++ { it with quantity := it.quantity + 1 } :: l2 := by
  induction l1 with
  | nil => simp [bumpQuantity, hit]
  | cons u rest ih =>
    simp only [List.cons_append, bumpQuantity, List.append_eq]
    rw [if_neg (h1 u (by simp)), ih fun x hx => h1 x (by simp [hx])]

theorem cartConsistent_congr {l1 l2 : List CartItem}
    (h : l1.map CartItem.restaurant_id = l2.map CartItem.restaurant_id)
    (hc : cartConsistent l2) : cartConsistent l1 := by
  intro a ha b hb
  have ha' : a.restaurant_id ∈ l2.map CartItem.restaurant_id :=
    h ▸ List.mem_map_of_mem _ ha
  have hb' : b.restaurant_id ∈ l2.map CartItem.restaurant_id :=
    h ▸ List.mem_map_of_mem _ hb
  rcases List.mem_map.mp ha' with ⟨a', ha2, ha3⟩
  rcases List.mem_map.mp hb' with ⟨b', hb2, hb3⟩
  rw [← ha3, ← hb3]
  exact hc a' ha2 b' hb2

/-- Claim C9.  `add_to_cart` preserves the one-restaurant cart invariant; a
menu item of a restaurant different from the one the non-empty cart holds is
rejected (the cart is returned unchanged); and adding a menu item whose id is
already in the cart increments the first line carrying that id by one instead
of appending a duplicate line. -/
theorem add_to_cart_single_restaurant :
    (∀ (cart : List CartItem) (mi : MenuItem) (rst : Restaurant ℚ),
      cartConsistent cart → cartConsistent (add_to_cart cart mi rst)) ∧
    (∀ (cart : List CartItem) (mi : MenuItem) (rst : Restaurant ℚ)
        (first : CartItem) (rest : List CartItem),
      cart = first :: rest → rst.id = some mi.restaurant_id →
      first.restaurant_id ≠ rst.id → add_to_cart cart mi rst = cart) ∧
    (∀ (cart : List CartItem) (mi : MenuItem) (rst : Restaurant ℚ)
        (l1 : List CartItem) (it : CartItem) (l2 : List CartItem),
      cart = l1 ++ it :: l2 → (∀ x ∈ l1, x.id ≠ mi.id) → it.id = mi.id →
      (∀ f, cart.head? = some f → f.restaurant_id = rst.id) →
      add_to_cart cart mi rst =
        l1 ++ { it with quantity := it.quantity + 1 } :: l2) := by
  refine ⟨?_, ?_, ?_⟩
  · intro cart mi rst hc
    cases cart with
    | nil =>
      intro a ha b hb
      simp only [add_to_cart, List.mem_singleton] at ha hb
      rw [ha, hb]
    | cons first rest =>
      simp only [add_to_cart]
      by_cases hg : first.restaurant_id = rst.id
      · rw [if_pos hg]
        by_cases hf :
            ((first :: rest).find? fun item => decide (item.id = mi.id)).isSome
        · rw [if_pos hf]
          exact cartConsistent_congr (bumpQuantity_restaurant_id _ _) hc
        · rw [if_neg hf]
          have key : ∀ x ∈ (first :: rest) ++
              [(⟨mi.id, mi.name, mi.price, 1, rst.id, rst.name⟩ : CartItem)],
              x.restaurant_id = first.restaurant_id := by
            intro x hx
            rcases List.mem_append.mp hx with h | h
            · exact hc x h first (by simp)
            · rw [List.mem_singleton] at h
              rw [h]
              exact hg.symm
          intro a ha b hb
          rw [key a ha, key b hb]
      · rw [if_neg hg]
        exact hc
  · intro cart mi rst first rest hcart hrst hne
    subst hcart
    simp only [add_to_cart]
    rw [if_neg hne]
  · intro cart mi rst l1 it l2 hcart h1 hit hhead
    subst hcart
    have hfind :
        ((l1 ++ it :: l2).find? fun item => decide (item.id = mi.id)).isSome :=
      List.find?_isSome.mpr ⟨it, by simp, by simp [hit]⟩
    cases l1 with
    | nil =>
      have hg : it.restaurant_id = rst.id := hhead it rfl
      simp only [List.nil_append] at hfind ⊢
      simp only [add_to_cart]
      rw [if_pos hg, if_pos hfind]
      exact bumpQuantity_append [] it l2 mi.id (by simp) hit
    | cons f l1' =>
      have hg : f.restaurant_id = rst.id := hhead f rfl
      simp only [List.cons_append] at hfind ⊢
      simp only [add_to_cart]
      rw [if_pos hg, if_pos hfind]
      exact bumpQuantity_append (f :: l1') it l2 mi.id h1 hit

/-- Witness for C9: starting from the empty cart, adding `sampleMenuItem`
yields a consistent one-line cart; adding an item of another restaurant is
rejected; adding `sampleMenuItem` again merges into the existing line with
quantity 2. -/
theorem add_to_cart_single_restaurant_witness :
    cartConsistent (add_to_cart [] sampleMenuItem sampleRestaurant) ∧
    add_to_cart (add_to_cart [] sampleMenuItem sampleRestaurant)
        { sampleMenuItem with id := some "item2", restaurant_id := "rest2" }
        { sampleRestaurant with id := some "rest2" } =
      add_to_cart [] sampleMenuItem sampleRestaurant ∧
    add_to_cart (add_to_cart [] sampleMenuItem sampleRestaurant)
        sampleMenuItem sampleRestaurant =
      [⟨some "item1", "Masala Dosa", 80, 2, some "rest1", "Udupi Garden"⟩] := by
  refine ⟨?_, ?_, ?_⟩
  · exact add_to_cart_single_restaurant.1 [] sampleMenuItem sampleRestaurant
      (by intro a ha b hb; simp at ha)
  · exact add_to_cart_single_restaurant.2.1 _ _ _
      ⟨some "item1", "Masala Dosa", 80, 1, some "rest1", "Udupi Garden"⟩ []
      (by decide) rfl (by decide)
  · have h := add_to_cart_single_restaurant.2.2
      (add_to_cart [] sampleMenuItem sampleRestaurant) sampleMenuItem
      sampleRestaurant []
      ⟨some "item1", "Masala Dosa", 80, 1, some "rest1", "Udupi Garden"⟩ []
      (by decide) (by simp) (by decide)
      (by intro f hf; injection hf with h3; rw [← h3])
    simpa using h

/-! ## C7: Haversine distance is symmetric, zero on equal points, non-negative -/

theorem calculate_distance_eq (lat1 lon1 lat2 lon2 : ℝ) :
    calculate_distance lat1 lon1 lat2 lon2 =
      2 * Real.arcsin (Real.sqrt
        (Real.sin ((pyRadians lat2 - pyRadians lat1) / 2) ^ 2 +
          Real.cos (pyRadians lat1) * Real.cos (pyRadians lat2) *
            Real.sin ((pyRadians lon2 - pyRadians lon1) / 2) ^ 2)) * 6371 :=
  rfl

/-- Claim C7.  `calculate_distance` is symmetric in its two coordinate
pairs, vanishes on equal pairs, and is always non-negative. -/
theorem calculate_distance_symm_self_nonneg :
    (∀ lat1 lon1 lat2 lon2 : ℝ,
      calculate_distance lat1 lon1 lat2 lon2 =
        calculate_distance lat2 lon2 lat1 lon1) ∧
    (∀ lat lon : ℝ, calculate_distance lat lon lat lon = 0) ∧
    (∀ lat1 lon1 lat2 lon2 : ℝ,
      0 ≤ calculate_distance lat1 lon1 lat2 lon2) := by
  have hsin : ∀ x y : ℝ,
      Real.sin ((x - y) / 2) ^ 2 = Real.sin ((y - x) / 2) ^ 2 := by
    intro x y
    rw [show (x - y) / 2 = -((y - x) / 2) by ring, Real.sin_neg]
    ring
  refine ⟨?_, ?_, ?_⟩
  · intro lat1 lon1 lat2 lon2
    rw [calculate_distance_eq, calculate_distance_eq]
    congr 4
    rw [hsin (pyRadians lat2) (pyRadians lat1),
      hsin (pyRadians lon2) (pyRadians lon1)]
    ring
  · intro lat lon
    rw [calculate_distance_eq]
    simp
  · intro lat1 lon1 lat2 lon2
    rw [calculate_distance_eq]
    have h1 : 0 ≤ Real.arcsin (Real.sqrt
        (Real.sin ((pyRadians lat2 - pyRadians lat1) / 2) ^ 2 +
          Real.cos (pyRadians lat1) * Real.cos (pyRadians lat2) *
            Real.sin ((pyRadians lon2 - pyRadians lon1) / 2) ^ 2)) :=
      Real.arcsin_nonneg.mpr (Real.sqrt_nonneg _)
    nlinarith [h1]

/-! ## C4 and C10: nearby-restaurant search -/

theorem filterMap_ite_eq_filter_map {α β : Type} (p : α → Prop)
    [DecidablePred p] (g : α → β) (l : List α) :
    (l.filterMap fun x => if p x then some (g x) else none) =
      (l.filter fun x => decide (p x)).map g := by
  induction l with
  | nil => rfl
  | cons a t ih => by_cases h : p a <;> simp [h, ih]

/-- The list returned by `get_nearby_restaurants` is a permutation of the
annotated filter of the input by true distance (the sort only reorders). -/
theorem get_nearby_restaurants_perm (loc : LatLng ℝ)
    (rs : List (Restaurant ℝ)) (r : ℝ) :
    List.Perm (get_nearby_restaurants loc rs r)
      ((rs.filter fun x => decide (calculate_distance loc.lat loc.lng
          x.location.lat x.location.lng ≤ r)).map
        fun x => ⟨x, round2 (calculate_distance loc.lat loc.lng
          x.location.lat x.location.lng)⟩) := by
  have h : List.Perm (get_nearby_restaurants loc rs r)
      (rs.filterMap fun restaurant =>
        if calculate_distance loc.lat loc.lng restaurant.location.lat
            restaurant.location.lng ≤ r then
          some (⟨restaurant, round2 (calculate_distance loc.lat loc.lng
            restaurant.location.lat restaurant.location.lng)⟩ :
              AnnotatedRestaurant)
        else none) :=
    List.mergeSort_perm _ _
  rw [filterMap_ite_eq_filter_map
    (fun x : Restaurant ℝ => calculate_distance loc.lat loc.lng
      x.location.lat x.location.lng ≤ r)
    (fun x : Restaurant ℝ => (⟨x, round2 (calculate_distance loc.lat loc.lng
      x.location.lat x.location.lng)⟩ : AnnotatedRestaurant))] at h
  exact h

/-- Claim C4.  `get_nearby_restaurants` returns exactly the input restaurants
whose Haversine distance from the user location is at most `radius_km`, each
annotated with its (rounded) computed distance, sorted so that the annotated
distances are non-decreasing; no returned restaurant's true distance exceeds
the radius. -/
theorem get_nearby_restaurants_filter_sorted :
    ∀ (loc : LatLng ℝ) (rs : List (Restaurant ℝ)) (r : ℝ),
    List.Perm (get_nearby_restaurants loc rs r)
      ((rs.filter fun x => decide (calculate_distance loc.lat loc.lng
          x.location.lat x.location.lng ≤ r)).map
        fun x => ⟨x, round2 (calculate_distance loc.lat loc.lng
          x.location.lat x.location.lng)⟩) ∧
    List.Sorted (fun a b : AnnotatedRestaurant => a.distance ≤ b.distance)
      (get_nearby_restaurants loc rs r) ∧
    (get_nearby_restaurants loc rs r).Forall fun a =>
      calculate_distance loc.lat loc.lng a.restaurant.location.lat
        a.restaurant.location.lng ≤ r := by
  intro loc rs r
  refine ⟨get_nearby_restaurants_perm loc rs r, ?_, ?_⟩
  · have hs := @List.sorted_mergeSort AnnotatedRestaurant
      (fun a b => decide (a.distance ≤ b.distance))
      (fun a b c h1 h2 => by
        simp only [decide_eq_true_eq] at *
        exact le_trans h1 h2)
      (fun a b => by simpa using le_total a.distance b.distance)
      (rs.filterMap fun restaurant =>
        if calculate_distance loc.lat loc.lng restaurant.location.lat
            restaurant.location.lng ≤ r then
          some (⟨restaurant, round2 (calculate_distance loc.lat loc.lng
            restaurant.location.lat restaurant.location.lng)⟩ :
              AnnotatedRestaurant)
        else none)
    refine List.Pairwise.imp ?_ hs
    intro a b h
    simpa using h
  · rw [List.forall_iff_forall_mem]
    intro a ha
    have ha2 := (get_nearby_restaurants_perm loc rs r).subset ha
    rcases List.mem_map.mp ha2 with ⟨x, hx, rfl⟩
    exact of_decide_eq_true (List.mem_filter.mp hx).2

/-- Claim C10.  Every entry returned by `get_nearby_restaurants` is a copy of
an input restaurant record — all its restaurant fields are those of a member
of the input list, which is itself left untouched — extended with the one
added `"distance"` field holding the computed distance rounded to two
decimals. -/
theorem get_nearby_restaurants_returns_copies :
    ∀ (loc : LatLng ℝ) (rs : List (Restaurant ℝ)) (r : ℝ),
    (get_nearby_restaurants loc rs r).Forall fun a =>
      a.restaurant ∈ rs ∧
      a.distance = round2 (calculate_distance loc.lat loc.lng
        a.restaurant.location.lat a.restaurant.location.lng) := by
  intro loc rs r
  rw [List.forall_iff_forall_mem]
  intro a ha
  have ha2 := (get_nearby_restaurants_perm loc rs r).subset ha
  rcases List.mem_map.mp ha2 with ⟨x, hx, rfl⟩
  exact ⟨(List.mem_filter.mp hx).1, rfl⟩

/-! ## Lifecycle helper lemmas (C1, C8) -/

theorem add_order_orders (s : AppState) (o : OrderRec) (now : ℚ) :
    (add_order s o now).1.mem.orders =
      s.mem.orders ++ [(add_order s o now).2] := by
  unfold add_order
  split_ifs <;> rfl

theorem add_order_status (s : AppState) (o : OrderRec) (now : ℚ) :
    (add_order s o now).2.status =
      if o.status = none then some "pending" else o.status := by
  cases hid : o.id <;> cases hca : o.created_at <;> cases hst : o.status <;>
    simp [add_order, hid, hca, hst]

/-- Under unique ids, the `update_order` call of a vendor action finds the
clicked (already in-place-mutated) record itself, so the action amounts to
replacing that one record and saving. -/
theorem vendorAction_eq (s : AppState) (l1 : List OrderRec) (o : OrderRec)
    (l2 : List OrderRec) (st : String) (ho : s.mem.orders = l1 ++ o :: l2)
    (hnd : (s.mem.orders.map OrderRec.id).Nodup) :
    vendorAction s l1 o l2 st =
      ⟨{ s.mem with orders := l1 ++ { o with status := some st } :: l2 },
        { s.mem with orders := l1 ++ { o with status := some st } :: l2 }⟩ := by
  rw [ho] at hnd
  have hne : ∀ v ∈ l1, v.id ≠ ({ o with status := some st } : OrderRec).id :=
    fun v hv => not_mem_of_nodup_middle OrderRec.id l1 o l2 hnd v hv
  have hupd := updateById_append OrderRec.id l1
    ({ o with status := some st }) ({ o with status := some st }) l2 rfl hne
  simp [vendorAction, update_order, hupd]

theorem ordersOk_middle (l1 : List OrderRec) (o : OrderRec)
    (l2 : List OrderRec) (o' : OrderRec)
    (hok : ordersOk (l1 ++ o :: l2) = true) (hst : statusOkB o' = true) :
    ordersOk (l1 ++ o' :: l2) = true := by
  simp only [ordersOk, List.all_append, List.all_cons, Bool.and_eq_true]
    at hok ⊢
  exact ⟨hok.1, hst, hok.2.2⟩

/-- Replacing the middle record of a decomposition: every position either
holds the same record as before, or is the replaced position. -/
theorem middle_update_getElem {α : Type} (l1 : List α) (x y : α)
    (l2 : List α) (i : ℕ) :
    ((l1 ++ y :: l2)[i]? = (l1 ++ x :: l2)[i]?) ∨
    ((l1 ++ x :: l2)[i]? = some x ∧ (l1 ++ y :: l2)[i]? = some y) := by
  rcases Nat.lt_trichotomy i l1.length with hi | hi | hi
  · left
    rw [List.getElem?_append_left hi, List.getElem?_append_left hi]
  · right
    subst hi
    constructor <;>
    · rw [List.getElem?_append_right (Nat.le_refl l1.length)]
      simp
  · left
    have hle : l1.length ≤ i := Nat.le_of_lt hi
    rw [List.getElem?_append_right hle, List.getElem?_append_right hle]
    have hpos : 0 < i - l1.length := Nat.sub_pos_of_lt hi
    rcases Nat.exists_eq_succ_of_ne_zero (Nat.pos_iff_ne_zero.mp hpos)
      with ⟨k, hk⟩
    rw [hk]
    simp

theorem mem_middle_replace {α : Type} (l1 : List α) (x y : α) (l2 : List α)
    (o : α) (ho : o ∈ l1 ++ x :: l2) (hne : o ≠ x) : o ∈ l1 ++ y :: l2 := by
  rcases List.mem_append.mp ho with h | h
  · exact List.mem_append_left _ h
  · rcases List.mem_cons.mp h with h | h
    · exact absurd h hne
    · exact List.mem_append_right _ (List.mem_cons_of_mem _ h)

/-! ## C1: reachable order statuses and their transitions -/

/-- Counterexample to claim C1 as stated: a Record Store insert of an order
carrying no status field stores it with status `"pending"`
(src/utils/data_store.py lines 205-206), which is not one of the five
lifecycle statuses. -/
theorem add_order_defaults_to_pending :
    (add_order emptyState (sampleOrder none none) 0).2.status =
      some "pending" ∧
    statusOkB (add_order emptyState (sampleOrder none none) 0).2 = false := by
  decide

/-- Claim C1 (amended): over the order-lifecycle operations — checkout
creation, Record Store inserts of orders that carry one of the five statuses,
vendor accept/reject/ready/deliver, and the demo auto-advance — every stored
order keeps a status in {confirmed, preparing, out_for_delivery, delivered,
cancelled}, and every status change follows the one-directional chain
confirmed → preparing → out_for_delivery → delivered with cancellation only
from confirmed or preparing.  (A raw insert of an order without a status
field falls outside the set: `add_order` defaults it to `"pending"`.) -/
theorem order_status_invariant_and_transitions :
    ∀ (s s' : AppState), OrderStep s s' →
    (s.mem.orders.map OrderRec.id).Nodup → ordersOk s.mem.orders = true →
    ordersOk s'.mem.orders = true ∧
    s.mem.orders.length ≤ s'.mem.orders.length ∧
    (∀ i : ℕ, i < s.mem.orders.length →
      s'.mem.orders[i]? = s.mem.orders[i]? ∨
      ∃ o o' a b, s.mem.orders[i]? = some o ∧ s'.mem.orders[i]? = some o' ∧
        o.status = some a ∧ o'.status = some b ∧ allowedTransition a b) := by
  intro s s' hstep hnd hok
  cases hstep with
  | checkout uid cname rid rname its idet tot addr ph pay etam now dist =>
    have horders := add_order_orders s
      (checkout_order uid cname rid rname its idet tot addr ph pay etam now
        dist) now
    have hst2 : (add_order s (checkout_order uid cname rid rname its idet tot
        addr ph pay etam now dist) now).2.status = some "confirmed" := by
      rw [add_order_status]; rfl
    have hnew : statusOkB (add_order s (checkout_order uid cname rid rname its
        idet tot addr ph pay etam now dist) now).2 = true := by
      unfold statusOkB
      rw [hst2]
      rfl
    refine ⟨?_, ?_, ?_⟩
    · show ordersOk (add_order s (checkout_order uid cname rid rname its idet
        tot addr ph pay etam now dist) now).1.mem.orders = true
      rw [horders]
      simp only [ordersOk, List.all_append, List.all_cons, List.all_nil,
        Bool.and_eq_true] at hok ⊢
      exact ⟨hok, hnew, trivial⟩
    · show s.mem.orders.length ≤ (add_order s (checkout_order uid cname rid
        rname its idet tot addr ph pay etam now dist) now).1.mem.orders.length
      rw [horders]
      simp
    · intro i hi
      left
      show (add_order s (checkout_order uid cname rid rname its idet tot addr
        ph pay etam now dist) now).1.mem.orders[i]? = s.mem.orders[i]?
      rw [horders, List.getElem?_append_left hi]
  | insert o now st hst hmem =>
    have horders := add_order_orders s o now
    have hst2 : (add_order s o now).2.status = some st := by
      rw [add_order_status, hst]
      rfl
    have hnew : statusOkB (add_order s o now).2 = true := by
      unfold statusOkB
      rw [hst2]
      exact List.elem_eq_true_of_mem hmem
    refine ⟨?_, ?_, ?_⟩
    · show ordersOk (add_order s o now).1.mem.orders = true
      rw [horders]
      simp only [ordersOk, List.all_append, List.all_cons, List.all_nil,
        Bool.and_eq_true] at hok ⊢
      exact ⟨hok, hnew, trivial⟩
    · show s.mem.orders.length ≤ (add_order s o now).1.mem.orders.length
      rw [horders]
      simp
    · intro i hi
      left
      show (add_order s o now).1.mem.orders[i]? = s.mem.orders[i]?
      rw [horders, List.getElem?_append_left hi]
  | accept l1 o l2 ho hst =>
    rw [vendorAction_eq s l1 o l2 "preparing" ho hnd]
    rw [ho] at hok
    refine ⟨?_, ?_, ?_⟩
    · show ordersOk (l1 ++ { o with status := some "preparing" } :: l2) = true
      exact ordersOk_middle l1 o l2 _ hok (by rfl)
    · show s.mem.orders.length ≤
        (l1 ++ { o with status := some "preparing" } :: l2).length
      rw [ho]
      simp
    · intro i hi
      rw [ho]
      show (l1 ++ { o with status := some "preparing" } :: l2)[i]? =
          (l1 ++ o :: l2)[i]? ∨ _
      rcases middle_update_getElem l1 o
        ({ o with status := some "preparing" }) l2 i with heq | ⟨h1, h2⟩
      · exact Or.inl heq
      · exact Or.inr ⟨o, _, "confirmed", "preparing", h1, h2, hst, rfl,
          by simp [allowedTransition]⟩
  | reject l1 o l2 ho hst =>
    rw [vendorAction_eq s l1 o l2 "cancelled" ho hnd]
    rw [ho] at hok
    refine ⟨?_, ?_, ?_⟩
    · show ordersOk (l1 ++ { o with status := some "cancelled" } :: l2) = true
      exact ordersOk_middle l1 o l2 _ hok (by rfl)
    · show s.mem.orders.length ≤
        (l1 ++ { o with status := some "cancelled" } :: l2).length
      rw [ho]
      simp
    · intro i hi
      rw [ho]
      show (l1 ++ { o with status := some "cancelled" } :: l2)[i]? =
          (l1 ++ o :: l2)[i]? ∨ _
      rcases middle_update_getElem l1 o
        ({ o with status := some "cancelled" }) l2 i with heq | ⟨h1, h2⟩
      · exact Or.inl heq
      · exact Or.inr ⟨o, _, "confirmed", "cancelled", h1, h2, hst, rfl,
          by simp [allowedTransition]⟩
  | ready l1 o l2 ho hst =>
    rw [vendorAction_eq s l1 o l2 "out_for_delivery" ho hnd]
    rw [ho] at hok
    refine ⟨?_, ?_, ?_⟩
    · show ordersOk
        (l1 ++ { o with status := some "out_for_delivery" } :: l2) = true
      exact ordersOk_middle l1 o l2 _ hok (by rfl)
    · show s.mem.orders.length ≤
        (l1 ++ { o with status := some "out_for_delivery" } :: l2).length
      rw [ho]
      simp
    · intro i hi
      rw [ho]
      show (l1 ++ { o with status := some "out_for_delivery" } :: l2)[i]? =
          (l1 ++ o :: l2)[i]? ∨ _
      rcases middle_update_getElem l1 o
        ({ o with status := some "out_for_delivery" }) l2 i
        with heq | ⟨h1, h2⟩
      · exact Or.inl heq
      · exact Or.inr ⟨o, _, "preparing", "out_for_delivery", h1, h2, hst, rfl,
          by simp [allowedTransition]⟩
  | deliver l1 o l2 ho hst =>
    rw [vendorAction_eq s l1 o l2 "delivered" ho hnd]
    rw [ho] at hok
    refine ⟨?_, ?_, ?_⟩
    · show ordersOk (l1 ++ { o with status := some "delivered" } :: l2) = true
      exact ordersOk_middle l1 o l2 _ hok (by rfl)
    · show s.mem.orders.length ≤
        (l1 ++ { o with status := some "delivered" } :: l2).length
      rw [ho]
      simp
    · intro i hi
      rw [ho]
      show (l1 ++ { o with status := some "delivered" } :: l2)[i]? =
          (l1 ++ o :: l2)[i]? ∨ _
      rcases middle_update_getElem l1 o
        ({ o with status := some "delivered" }) l2 i with heq | ⟨h1, h2⟩
      · exact Or.inl heq
      · exact Or.inr ⟨o, _, "out_for_delivery", "delivered", h1, h2, hst, rfl,
          by simp [allowedTransition]⟩
  | autoPrepare l1 o l2 ho hst =>
    rw [ho] at hok
    refine ⟨?_, ?_, ?_⟩
    · show ordersOk (l1 ++ { o with status := some "preparing" } :: l2) = true
      exact ordersOk_middle l1 o l2 _ hok (by rfl)
    · show s.mem.orders.length ≤
        (l1 ++ { o with status := some "preparing" } :: l2).length
      rw [ho]
      simp
    · intro i hi
      rw [ho]
      show (l1 ++ { o with status := some "preparing" } :: l2)[i]? =
          (l1 ++ o :: l2)[i]? ∨ _
      rcases middle_update_getElem l1 o
        ({ o with status := some "preparing" }) l2 i with heq | ⟨h1, h2⟩
      · exact Or.inl heq
      · exact Or.inr ⟨o, _, "confirmed", "preparing", h1, h2, hst, rfl,
          by simp [allowedTransition]⟩
  | autoOut l1 o l2 ho hst =>
    rw [ho] at hok
    refine ⟨?_, ?_, ?_⟩
    · show ordersOk
        (l1 ++ { o with status := some "out_for_delivery" } :: l2) = true
      exact ordersOk_middle l1 o l2 _ hok (by rfl)
    · show s.mem.orders.length ≤
        (l1 ++ { o with status := some "out_for_delivery" } :: l2).length
      rw [ho]
      simp
    · intro i hi
      rw [ho]
      show (l1 ++ { o with status := some "out_for_delivery" } :: l2)[i]? =
          (l1 ++ o :: l2)[i]? ∨ _
      rcases middle_update_getElem l1 o
        ({ o with status := some "out_for_delivery" }) l2 i
        with heq | ⟨h1, h2⟩
      · exact Or.inl heq
      · exact Or.inr ⟨o, _, "preparing", "out_for_delivery", h1, h2, hst, rfl,
          by simp [allowedTransition]⟩

/-- Witness for C1 (amended): a concrete accept step on a store holding a
confirmed and a cancelled order satisfies the hypotheses, and the invariant
holds before and after. -/
theorem order_status_invariant_and_transitions_witness :
    (witnessState.mem.orders.map OrderRec.id).Nodup ∧
    ordersOk witnessState.mem.orders = true ∧
    ordersOk (vendorAction witnessState []
      (sampleOrder (some "order1") (some "confirmed"))
      [sampleOrder (some "order2") (some "cancelled")]
      "preparing").mem.orders = true := by
  refine ⟨by decide, by decide, ?_⟩
  exact (order_status_invariant_and_transitions witnessState _
    (OrderStep.accept witnessState []
      (sampleOrder (some "order1") (some "confirmed"))
      [sampleOrder (some "order2") (some "cancelled")] rfl rfl)
    (by decide) (by decide)).1

/-! ## C8: checkout yields confirmed; cancelled and delivered are terminal -/

/-- Claim C8.  Every order created through customer checkout is stored with
status `"confirmed"`; a vendor Reject on a confirmed order sets its status to
`"cancelled"`; and no lifecycle operation ever touches an order whose status
is `"cancelled"` or `"delivered"` — the record survives every step unchanged
(terminal states). -/
theorem checkout_confirmed_and_terminal_states :
    (∀ (s : AppState) (uid cname rid rname : String) (its : List String)
      (idet : List CartItem) (tot : ℚ) (addr ph pay : String) (etam : ℤ)
      (now dist : ℚ),
      (place_order s uid cname rid rname its idet tot addr ph pay etam now
        dist).2.status = some "confirmed") ∧
    (∀ (s : AppState) (l1 : List OrderRec) (o : OrderRec)
      (l2 : List OrderRec), s.mem.orders = l1 ++ o :: l2 →
      o.status = some "confirmed" → (s.mem.orders.map OrderRec.id).Nodup →
      (vendorAction s l1 o l2 "cancelled").mem.orders =
        l1 ++ { o with status := some "cancelled" } :: l2) ∧
    (∀ (s s' : AppState), OrderStep s s' →
      (s.mem.orders.map OrderRec.id).Nodup →
      ∀ o ∈ s.mem.orders,
      o.status = some "cancelled" ∨ o.status = some "delivered" →
      o ∈ s'.mem.orders) := by
  refine ⟨?_, ?_, ?_⟩
  · intro s uid cname rid rname its idet tot addr ph pay etam now dist
    show (add_order s (checkout_order uid cname rid rname its idet tot addr
      ph pay etam now dist) now).2.status = some "confirmed"
    rw [add_order_status]
    rfl
  · intro s l1 o l2 ho hst hnd
    rw [vendorAction_eq s l1 o l2 "cancelled" ho hnd]
  · intro s s' hstep hnd o ho hterm
    cases hstep with
    | checkout uid cname rid rname its idet tot addr ph pay etam now dist =>
      show o ∈ (add_order s (checkout_order uid cname rid rname its idet tot
        addr ph pay etam now dist) now).1.mem.orders
      rw [add_order_orders]
      exact List.mem_append_left _ ho
    | insert oo now st hst hmem =>
      show o ∈ (add_order s oo now).1.mem.orders
      rw [add_order_orders]
      exact List.mem_append_left _ ho
    | accept l1 oo l2 hdec hstc =>
      rw [vendorAction_eq s l1 oo l2 "preparing" hdec hnd]
      show o ∈ l1 ++ { oo with status := some "preparing" } :: l2
      rw [hdec] at ho
      refine mem_middle_replace l1 oo _ l2 o ho ?_
      intro he
      rcases hterm with ht | ht <;> rw [he, hstc] at ht <;>
        exact absurd ht (by decide)
    | reject l1 oo l2 hdec hstc =>
      rw [vendorAction_eq s l1 oo l2 "cancelled" hdec hnd]
      show o ∈ l1 ++ { oo with status := some "cancelled" } :: l2
      rw [hdec] at ho
      refine mem_middle_replace l1 oo _ l2 o ho ?_
      intro he
      rcases hterm with ht | ht <;> rw [he, hstc] at ht <;>
        exact absurd ht (by decide)
    | ready l1 oo l2 hdec hstc =>
      rw [vendorAction_eq s l1 oo l2 "out_for_delivery" hdec hnd]
      show o ∈ l1 ++ { oo with status := some "out_for_delivery" } :: l2
      rw [hdec] at ho
      refine mem_middle_replace l1 oo _ l2 o ho ?_
      intro he
      rcases hterm with ht | ht <;> rw [he, hstc] at ht <;>
        exact absurd ht (by decide)
    | deliver l1 oo l2 hdec hstc =>
      rw [vendorAction_eq s l1 oo l2 "delivered" hdec hnd]
      show o ∈ l1 ++ { oo with status := some "delivered" } :: l2
      rw [hdec] at ho
      refine mem_middle_replace l1 oo _ l2 o ho ?_
      intro he
      rcases hterm with ht | ht <;> rw [he, hstc] at ht <;>
        exact absurd ht (by decide)
    | autoPrepare l1 oo l2 hdec hstc =>
      show o ∈ l1 ++ { oo with status := some "preparing" } :: l2
      rw [hdec] at ho
      refine mem_middle_replace l1 oo _ l2 o ho ?_
      intro he
      rcases hterm with ht | ht <;> rw [he, hstc] at ht <;>
        exact absurd ht (by decide)
    | autoOut l1 oo l2 hdec hstc =>
      show o ∈ l1 ++ { oo with status := some "out_for_delivery" } :: l2
      rw [hdec] at ho
      refine mem_middle_replace l1 oo _ l2 o ho ?_
      intro he
      rcases hterm with ht | ht <;> rw [he, hstc] at ht <;>
        exact absurd ht (by decide)

/-- Witness for C8: a concrete checkout is stored confirmed; a concrete
Reject on a confirmed order cancels it; and a cancelled order survives a
concrete accept step on another order untouched. -/
theorem checkout_confirmed_and_terminal_states_witness :
    (place_order emptyState "1700000000" "Asha" "rest1" "Udupi Garden"
      ["Masala Dosa x1"] [] 80 "MG Road" "99" "Cash on Delivery" 12 0
      1).2.status = some "confirmed" ∧
    (vendorAction witnessState []
      (sampleOrder (some "order1") (some "confirmed"))
      [sampleOrder (some "order2") (some "cancelled")]
      "cancelled").mem.orders =
      [{ sampleOrder (some "order1") (some "confirmed") with
          status := some "cancelled" },
        sampleOrder (some "order2") (some "cancelled")] ∧
    sampleOrder (some "order2") (some "cancelled") ∈
      (vendorAction witnessState []
        (sampleOrder (some "order1") (some "confirmed"))
        [sampleOrder (some "order2") (some "cancelled")]
        "preparing").mem.orders := by
  refine ⟨?_, ?_, ?_⟩
  · exact checkout_confirmed_and_terminal_states.1 emptyState "1700000000"
      "Asha" "rest1" "Udupi Garden" ["Masala Dosa x1"] [] 80 "MG Road" "99"
      "Cash on Delivery" 12 0 1
  · have h := checkout_confirmed_and_terminal_states.2.1 witnessState []
      (sampleOrder (some "order1") (some "confirmed"))
      [sampleOrder (some "order2") (some "cancelled")] rfl rfl (by decide)
    simpa using h
  · exact checkout_confirmed_and_terminal_states.2.2 witnessState _
      (OrderStep.accept witnessState []
        (sampleOrder (some "order1") (some "confirmed"))
        [sampleOrder (some "order2") (some "cancelled")] rfl rfl)
      (by decide) (sampleOrder (some "order2") (some "cancelled"))
      (by decide) (Or.inl rfl)
